import Mathlib

/-
  Shallow embedding of the event-bus / order-service core of the
  py-order-management repository.

  Conventions of the embedding:
  * Python `datetime` values are modelled by their ISO-8601 string (the code
    only ever passes them around or calls `isoformat()`, which becomes the
    identity on this representation); `Decimal` values are modelled as `ℚ`
    (Decimal arithmetic on the amounts involved is exact); Python `None` is
    `PyScalar.sNone`.
  * Python dictionaries are association lists with unique keys; `dictGet`
    models both `d[k]` (when the key is present) and `d.get(k)`.
  * `async` functions are modelled as pure functions threading explicit
    state; a raised exception becomes `Except.error`.
  * The record store (Prisma) and the cache store (Redis) are the external
    collaborators of the spec: the record store is a list of records where
    `find_first` is `List.find?`, `update` rewrites matching records and
    `delete` filters them out; the cache is an association list, and the
    JSON serialize/deserialize round trip on cache values is the identity.
-/

namespace OrderMgmt

/-- Scalar Python values that appear in the order dictionaries built by
`order_service.py`: None, int, str, datetime (as ISO string), Decimal/float
(as a rational). -/
inductive PyScalar where
  | sNone : PyScalar
  | sInt : Int → PyScalar
  | sStr : String → PyScalar
  | sRat : ℚ → PyScalar
deriving DecidableEq

/-- A value of an order dictionary: either a scalar field or the list of
line dictionaries stored under the key "lines". -/
inductive OVal where
  | s : PyScalar → OVal
  | lines : List (List (String × PyScalar)) → OVal
deriving DecidableEq

/-- An order dictionary (e.g. `response_data`, `old_data`, `order_data_dict`
in `order_service.py`). -/
abbrev OrderDict := List (String × OVal)

/-- A value of an event payload dictionary: a scalar, a nested order
dictionary, a list of line dictionaries, or the computed `changes` mapping
field -> (from, to). Python's inner dict with keys "from"/"to" is modelled
as the pair (from, to). -/
inductive PVal where
  | s : PyScalar → PVal
  | od : OrderDict → PVal
  | lines : List (List (String × PyScalar)) → PVal
  | chg : List (String × OVal × OVal) → PVal
deriving DecidableEq

/-- An event payload dictionary (the `data` argument of `Event.__init__`). -/
abbrev EventData := List (String × PVal)

/-- Python dict access `d[k]` / `d.get(k)` on an association list: first
binding of the key, if any (our dictionaries never repeat keys). -/
def dictGet {β : Type} (d : List (String × β)) (k : String) : Option β :=
  match d with
  | [] => none
  | (k2, v) :: rest => if k2 == k then some v else dictGet rest k

/-- Model of `app/events/base.py`, class `Event`: an event carries a string type tag
and a payload. The per-instance uuid, timestamp and correlation id are not
inspected by any code the claims concern and are omitted. The payload type
is a parameter because the bus is payload-agnostic. -/
structure Event (α : Type) where
  event_type : String
  data : α
deriving DecidableEq

/-- Model of `app/events/base.py`, class `EventHandler`: a predicate `can_handle` and
an action `handle`. Either may raise, modelled by `Except String`; the
observable outcome of `handle` is success or a raised error. -/
structure EventHandler (α : Type) where
  can_handle : Event α → Except String Bool
  handle : Event α → Except String Unit

/-- Model of `app/events/event_bus.py`, class `EventBus`: a registration-ordered list
of handlers and the unbounded event history. -/
structure EventBus (α : Type) where
  handlers : List (EventHandler α)
  event_history : List (Event α)

/-- The list comprehension in `EventBus.publish` that computes
`relevant_handlers`: evaluate `can_handle` left to right, keeping the
handlers for which it returns true; an exception raised by `can_handle`
aborts the comprehension and propagates. -/
def selectHandlers {α : Type} (hs : List (EventHandler α)) (e : Event α) :
    Except String (List (EventHandler α)) :=
  match hs with
  | [] => .ok []
  | h :: t =>
    match h.can_handle e with
    | .error msg => .error msg
    | .ok b =>
      match selectHandlers t e with
      | .error msg => .error msg
      | .ok rest => .ok (if b then h :: rest else rest)

/-- Model of `EventBus._execute_handler`: runs `handle`; on an exception it logs and
re-raises, so its observable outcome is exactly the outcome of `handle`. -/
def execute_handler {α : Type} (h : EventHandler α) (e : Event α) :
    Except String Unit :=
  h.handle e

/-- Model of `EventBus.publish`: append the event to the history, select the relevant
handlers, then run `_execute_handler` for each; `asyncio.gather` with
`return_exceptions=True` collects each handler's outcome without
re-raising, so on the normal path `publish` returns the per-handler
outcomes (paired with the handler, in selection order). The history append
happens before handler selection, so it survives a `can_handle` exception. -/
def publish {α : Type} (bus : EventBus α) (e : Event α) :
    EventBus α × Except String (List (EventHandler α × Except String Unit)) :=
  let bus2 : EventBus α := ⟨bus.handlers, bus.event_history ++ [e]⟩
  match selectHandlers bus.handlers e with
  | .error msg => (bus2, .error msg)
  | .ok rel => (bus2, .ok (rel.map (fun h => (h, execute_handler h e))))

/-- Model of `EventBus.get_event_history`: Python's `if event_type:` is a truthiness
test, so both `None` and the empty string select the unfiltered history. -/
def get_event_history {α : Type} (bus : EventBus α) (event_type : Option String) :
    List (Event α) :=
  match event_type with
  | some s => if s ≠ "" then bus.event_history.filter (fun e => e.event_type == s)
              else bus.event_history
  | none => bus.event_history

/-- Boolean form of "`can_handle` returned true" (false when it raised). -/
def canHandleTrue {α : Type} (h : EventHandler α) (e : Event α) : Bool :=
  match h.can_handle e with
  | .ok b => b
  | .error _ => false

/-- Model of `OrderUpdatedEvent._calculate_changes` in `app/events/order_events.py`:
iterate over the keys of `new_data` in order; a key contributes an entry
exactly when it is also a key of `old_data` and the two values differ. The
Python result dict `key -> ("from": ov, "to": v)` is modelled as an
association list `key -> (ov, v)`. Generic in the value type. -/
def calculate_changes {β : Type} [DecidableEq β]
    (old_data new_data : List (String × β)) : List (String × β × β) :=
  match new_data with
  | [] => []
  | (k, v) :: rest =>
    match dictGet old_data k with
    | some ov =>
      if ov ≠ v then (k, (ov, v)) :: calculate_changes old_data rest
      else calculate_changes old_data rest
    | none => calculate_changes old_data rest

/-- Embeds an order dictionary into an event payload dictionary (used where
Python passes the order dict itself as the event `data`). -/
def orderDictToEventData (d : OrderDict) : EventData :=
  d.map (fun p => (p.1, match p.2 with
    | .s v => PVal.s v
    | .lines l => PVal.lines l))

/-- Model of `OrderCreatedEvent.__init__`: validates that the four required keys are
present in the order data (raising `ValueError` naming the first missing
one), then builds the event with the order dict as payload. -/
def mkOrderCreatedEvent (order_data : OrderDict) : Except String (Event EventData) :=
  match ["id", "customerId", "orderDate", "status"].find?
      (fun f => (dictGet order_data f).isNone) with
  | some f => .error ("Missing required field: " ++ f)
  | none => .ok ⟨"OrderCreated", orderDictToEventData order_data⟩

/-- Model of `OrderUpdatedEvent.__init__`: payload with `order_id`, `old_data`,
`new_data` and the computed `changes`. -/
def mkOrderUpdatedEvent (order_id : Int) (old_data new_data : OrderDict) :
    Event EventData :=
  ⟨"OrderUpdated",
    [("order_id", .s (.sInt order_id)),
     ("old_data", .od old_data),
     ("new_data", .od new_data),
     ("changes", .chg (calculate_changes old_data new_data))]⟩

/-- Model of `OrderDeletedEvent.__init__`: payload with `order_id` and the order
snapshot `order_data`. -/
def mkOrderDeletedEvent (order_id : Int) (order_data : OrderDict) :
    Event EventData :=
  ⟨"OrderDeleted",
    [("order_id", .s (.sInt order_id)),
     ("order_data", .od order_data)]⟩

/-- A row of the `orderline` table (an order's line as the record store
returns it; `createdAt` is a datetime modelled as its ISO string). -/
structure DbLine where
  id : Int
  productId : Int
  quantity : Int
  unitPrice : ℚ
  createdAt : Option String
deriving DecidableEq

/-- A row of the `orderheader` table together with its lines (the record
store loads an order with its lines as one read when asked to include
them). -/
structure DbOrder where
  id : Int
  customerId : Int
  orderDate : Option String
  status : String
  totalAmount : ℚ
  createdAt : Option String
  updatedAt : Option String
  lines : List DbLine
deriving DecidableEq

/-- A possibly-absent datetime field as it appears in a dictionary. -/
def optScalar : Option String → PyScalar
  | some s => .sStr s
  | none => .sNone

/-- The seven header fields of an order as `update_order`/`delete_order`
put them into a dictionary, with their raw (unnormalized) values. -/
def rawHeaderDict (o : DbOrder) : OrderDict :=
  [("id", .s (.sInt o.id)),
   ("customerId", .s (.sInt o.customerId)),
   ("orderDate", .s (optScalar o.orderDate)),
   ("status", .s (.sStr o.status)),
   ("totalAmount", .s (.sRat o.totalAmount)),
   ("createdAt", .s (optScalar o.createdAt)),
   ("updatedAt", .s (optScalar o.updatedAt))]

/-- A line dictionary with raw values, as built by `update_order` and
`delete_order`. -/
def rawLineDict (l : DbLine) : List (String × PyScalar) :=
  [("id", .sInt l.id),
   ("productId", .sInt l.productId),
   ("quantity", .sInt l.quantity),
   ("unitPrice", .sRat l.unitPrice),
   ("createdAt", optScalar l.createdAt)]

/-- The full order dictionary (header fields plus "lines") with raw values,
as built by `update_order` (`response_data`) and `delete_order`
(`order_data_dict`). -/
def rawOrderDict (o : DbOrder) : OrderDict :=
  rawHeaderDict o ++ [("lines", .lines (o.lines.map rawLineDict))]

/-- A line dictionary as normalized by `get_order_by_id`: `unitPrice` goes
through `float(x) if x else 0.0` (Python truthiness: `Decimal 0` is falsy),
`createdAt` through `isoformat() if x else None`. -/
def snapLineDict (l : DbLine) : List (String × PyScalar) :=
  [("id", .sInt l.id),
   ("productId", .sInt l.productId),
   ("quantity", .sInt l.quantity),
   ("unitPrice", if l.unitPrice = 0 then .sRat 0 else .sRat l.unitPrice),
   ("createdAt", optScalar l.createdAt)]

/-- The JSON-safe order snapshot built by `get_order_by_id` (its
`response_data`, lines 109-127 of `order_service.py`). -/
def normalizeSnapshot (o : DbOrder) : OrderDict :=
  [("id", .s (.sInt o.id)),
   ("customerId", .s (.sInt o.customerId)),
   ("orderDate", .s (optScalar o.orderDate)),
   ("status", .s (.sStr o.status)),
   ("totalAmount", .s (if o.totalAmount = 0 then .sRat 0 else .sRat o.totalAmount)),
   ("createdAt", .s (optScalar o.createdAt)),
   ("updatedAt", .s (optScalar o.updatedAt)),
   ("lines", .lines (o.lines.map snapLineDict))]

/-- The Redis cache: keys to cached (deserialized) order snapshots. The
JSON round trip on a stored snapshot is the identity in this model. -/
abbrev Cache := List (String × OrderDict)

/-- The cache key `"order:" + orderId`. -/
def cacheKey (order_id : Int) : String := "order:" ++ toString order_id

/-- Model of `redis_client.set`: overwrite the binding of the key. -/
def cacheSet (c : Cache) (k : String) (v : OrderDict) : Cache :=
  (k, v) :: c.filter (fun p => !(p.1 == k))

/-- The record-store predicate `where id == order_id AND customerId ==
customer_id`. -/
def ownedBy (order_id customer_id : Int) (r : DbOrder) : Bool :=
  r.id == order_id && r.customerId == customer_id

/-- Result of `get_order_by_id`: the returned value (absent when no order
matches), the cache afterwards, and whether the record store was queried. -/
structure GetOrderResult where
  result : Option OrderDict
  cache : Cache
  dbQueried : Bool
deriving DecidableEq

/-- The record-store branch of `get_order_by_id` (lines 97-133): query by
`order_id` and `customer_id`; absent result on no match; otherwise
normalize, write through to the cache with the standard TTL, and return
the snapshot. -/
def fallbackToDb (cache : Cache) (db : List DbOrder) (order_id customer_id : Int) :
    GetOrderResult :=
  match db.find? (ownedBy order_id customer_id) with
  | none => ⟨none, cache, true⟩
  | some hdr =>
    let snap := normalizeSnapshot hdr
    ⟨some snap, cacheSet cache (cacheKey order_id) snap, true⟩

/-- Model of `OrderService.get_order_by_id`: cache-first read. On a cached entry
whose `customerId` equals the caller's (Python `.get` yields None when the
key is missing, which never equals an int) the cached snapshot is returned
with no record-store query; otherwise fall back to the record store. -/
def get_order_by_id (cache : Cache) (db : List DbOrder) (order_id customer_id : Int) :
    GetOrderResult :=
  match dictGet cache (cacheKey order_id) with
  | some cached =>
    if (dictGet cached "customerId").getD (.s .sNone) == OVal.s (.sInt customer_id) then
      ⟨some cached, cache, false⟩
    else fallbackToDb cache db order_id customer_id
  | none => fallbackToDb cache db order_id customer_id

/-- State threaded through the write paths: the record store rows and the
event bus. -/
structure ServiceState where
  db : List DbOrder
  bus : EventBus EventData

/-- Model of `db.orderheader.update(where id, data status)`: rewrite the status of
the records matching the id. -/
def dbUpdateStatus (db : List DbOrder) (order_id : Int) (status : String) :
    List DbOrder :=
  db.map (fun r => if r.id == order_id then { r with status := status } else r)

/-- Model of `db.orderheader.delete(where id)` (cascade removes the lines with the
header). -/
def dbDelete (db : List DbOrder) (order_id : Int) : List DbOrder :=
  db.filter (fun r => !(r.id == order_id))

/-- Model of `OrderService.update_order`: read the current order (scoped to the
customer), capture `old_data`, update the status by id, re-read with
lines, build `response_data`, publish `OrderUpdated`, return the response.
A missing order yields an absent result; an exception from `publish`
propagates (after the record store was already updated and the event
appended to the bus history). -/
def update_order (st : ServiceState) (order_id : Int) (new_status : String)
    (customer_id : Int) : ServiceState × Except String (Option OrderDict) :=
  match st.db.find? (ownedBy order_id customer_id) with
  | none => (st, .ok none)
  | some current =>
    let old_data := rawHeaderDict current
    let db2 := dbUpdateStatus st.db order_id new_status
    match db2.find? (fun r => r.id == order_id) with
    | none => ({ st with db := db2 }, .error "AttributeError: NoneType")
    | some updated =>
      let response_data := rawOrderDict updated
      let ev := mkOrderUpdatedEvent order_id old_data response_data
      let pub := publish st.bus ev
      let st2 : ServiceState := ⟨db2, pub.1⟩
      match pub.2 with
      | .error msg => (st2, .error msg)
      | .ok _ => (st2, .ok (some response_data))

/-- One observable external action of `delete_order`, in program order. -/
inductive DbAction where
  | dbFind : DbAction
  | publishEvent : Event EventData → DbAction
  | dbDeleteCall : Int → DbAction
deriving DecidableEq

/-- Result of `delete_order`: final state, the trace of external actions in
the order the code issues them, and the returned/raised outcome. -/
structure DeleteResult where
  state : ServiceState
  trace : List DbAction
  result : Except String Bool

/-- Model of `OrderService.delete_order`: read the order with its lines (scoped to
the customer); raise `ValueError` when absent; capture the snapshot
dictionary; publish `OrderDeleted` FIRST; only then issue the record-store
delete. `delete_ok` models whether the external record store's delete call
succeeds; when it fails the exception propagates, but only after the event
was published. -/
def delete_order (st : ServiceState) (order_id customer_id : Int)
    (delete_ok : Bool) : DeleteResult :=
  match st.db.find? (ownedBy order_id customer_id) with
  | none => ⟨st, [.dbFind], .error ("Order " ++ toString order_id ++ " not found")⟩
  | some order_data =>
    let order_data_dict := rawOrderDict order_data
    let ev := mkOrderDeletedEvent order_id order_data_dict
    let pub := publish st.bus ev
    match pub.2 with
    | .error msg => ⟨⟨st.db, pub.1⟩, [.dbFind, .publishEvent ev], .error msg⟩
    | .ok _ =>
      if delete_ok then
        ⟨⟨dbDelete st.db order_id, pub.1⟩,
         [.dbFind, .publishEvent ev, .dbDeleteCall order_id], .ok true⟩
      else
        ⟨⟨st.db, pub.1⟩,
         [.dbFind, .publishEvent ev, .dbDeleteCall order_id],
         .error "record store delete failed"⟩

/-- One line of a `CreateOrderRequest` (`OrderLineRequest` DTO). -/
structure LineReq where
  product_id : Int
  quantity : Int
  unit_price : ℚ
deriving DecidableEq

/-- The request body of `create_order` (`CreateOrderRequest` DTO). -/
structure CreateOrderRequest where
  order_date : Option String
  status : String
  lines : List LineReq
deriving DecidableEq

/-- Model of `OrderService._calculate_total_amount`: `total = Decimal(0)`, then
`total += line.unit_price * line.quantity` over the lines. -/
def calculate_total_amount (lines : List LineReq) : ℚ :=
  lines.foldl (fun total line => total + line.unit_price * (line.quantity : ℚ)) 0

/-- Model of `OrderService.create_order`: compute the total, create the header row,
create one line row per request line, build `response_data` from the
created rows, publish `OrderCreated` (whose constructor validates the
required fields), and return the response. The record store assigns the
new ids and timestamps; they enter the model as the parameters
`header_id`, `line_id` (id of the i-th created line) and `now`. -/
def create_order (st : ServiceState) (req : CreateOrderRequest)
    (customer_id : Int) (header_id : Int) (line_id : Nat → Int)
    (now : Option String) : ServiceState × Except String OrderDict :=
  let total := calculate_total_amount req.lines
  let order_lines : List DbLine := req.lines.enum.map
    (fun p => ⟨line_id p.1, p.2.product_id, p.2.quantity, p.2.unit_price, now⟩)
  let header : DbOrder :=
    ⟨header_id, customer_id, req.order_date, req.status, total, now, now, order_lines⟩
  let db2 := st.db ++ [header]
  let response_data : OrderDict :=
    rawHeaderDict header ++ [("lines", .lines (order_lines.map rawLineDict))]
  match mkOrderCreatedEvent response_data with
  | .error msg => (⟨db2, st.bus⟩, .error msg)
  | .ok ev =>
    let pub := publish st.bus ev
    match pub.2 with
    | .error msg => (⟨db2, pub.1⟩, .error msg)
    | .ok _ => (⟨db2, pub.1⟩, .ok response_data)

/-- Whether an `Except` carries a success (no exception was raised). -/
def exceptOk {β : Type} : Except String β → Bool
  | .ok _ => true
  | .error _ => false

/- Concrete data used by the witness theorems. -/

/-- A concrete event. -/
def ev0 : Event EventData := ⟨"T", []⟩

/-- A handler that accepts every event and handles it successfully. -/
def hOk : EventHandler EventData := ⟨fun _ => .ok true, fun _ => .ok ()⟩

/-- A handler that accepts every event and raises from `handle`. -/
def hBoom : EventHandler EventData := ⟨fun _ => .ok true, fun _ => .error "boom"⟩

/-- A handler whose `can_handle` returns false. -/
def hNo : EventHandler EventData := ⟨fun _ => .ok false, fun _ => .ok ()⟩

/-- A handler whose `can_handle` itself raises. -/
def hRaise : EventHandler EventData := ⟨fun _ => .error "predicate failed", fun _ => .ok ()⟩

/- Helper lemmas about handler selection. -/

/-- When no `can_handle` raises, the selection succeeds and equals the
filter of the registered handlers by "`can_handle` returned true",
preserving registration order. -/
theorem selectHandlers_of_all_ok {α : Type} (e : Event α) :
    ∀ hs : List (EventHandler α),
    (∀ h ∈ hs, exceptOk (h.can_handle e) = true) →
    selectHandlers hs e = .ok (hs.filter (fun h => canHandleTrue h e)) := by
  intro hs
  induction hs with
  | nil => intro _; rfl
  | cons a t ih =>
    intro hall
    have ha := hall a (List.mem_cons_self a t)
    have ht := ih (fun g hg => hall g (List.mem_cons_of_mem a hg))
    cases hc : a.can_handle e with
    | error m => rw [hc] at ha; simp [exceptOk] at ha
    | ok b =>
      cases b <;>
        simp [selectHandlers, hc, ht, List.filter_cons, canHandleTrue]

/-- If every `can_handle` before some handler succeeds and that handler's
`can_handle` raises, the selection raises that same exception. -/
theorem selectHandlers_error_of_first {α : Type} (e : Event α)
    (h : EventHandler α) (post : List (EventHandler α)) (msg : String)
    (hh : h.can_handle e = .error msg) :
    ∀ pre : List (EventHandler α),
    (∀ g ∈ pre, exceptOk (g.can_handle e) = true) →
    selectHandlers (pre ++ h :: post) e = .error msg := by
  intro pre
  induction pre with
  | nil => intro _; simp [selectHandlers, hh]
  | cons a t ih =>
    intro hall
    have ha := hall a (List.mem_cons_self a t)
    have ht := ih (fun g hg => hall g (List.mem_cons_of_mem a hg))
    cases hc : a.can_handle e with
    | error m => rw [hc] at ha; simp [exceptOk] at ha
    | ok b => simp [selectHandlers, hc, ht]

/-- C1: if every registered handler accepts the event and one of them
raises from `handle`, `publish` still returns normally, every handler's
`handle` call appears in the collected outcomes with its own result
(sibling invocations are unaffected by the failure), and the handlers that
succeeded are recorded as successful. -/
theorem publish_isolates_handler_failures {α : Type} (bus : EventBus α)
    (e : Event α)
    (hall : ∀ h ∈ bus.handlers, h.can_handle e = .ok true)
    (_hone : ∃ h ∈ bus.handlers, exceptOk (h.handle e) = false) :
    ∃ results, (publish bus e).2 = .ok results ∧
      results = bus.handlers.map (fun h => (h, h.handle e)) ∧
      results.length = bus.handlers.length ∧
      ∀ h ∈ bus.handlers, exceptOk (h.handle e) = true →
        (h, Except.ok ()) ∈ results := by
  have hsel : selectHandlers bus.handlers e =
      .ok (bus.handlers.filter (fun h => canHandleTrue h e)) :=
    selectHandlers_of_all_ok e bus.handlers
      (fun h hm => by rw [hall h hm]; rfl)
  have hfilter : bus.handlers.filter (fun h => canHandleTrue h e) = bus.handlers :=
    List.filter_eq_self.mpr (fun h hm => by simp [canHandleTrue, hall h hm])
  refine ⟨bus.handlers.map (fun h => (h, h.handle e)), ?_, rfl, by simp, ?_⟩
  · simp [publish, hsel, hfilter, execute_handler]
  · intro h hm hok
    have : h.handle e = Except.ok () := by
      cases hres : h.handle e with
      | ok u => cases u; rfl
      | error m => rw [hres] at hok; simp [exceptOk] at hok
    exact List.mem_map.mpr ⟨h, hm, by rw [this]⟩

/-- C1 witness: a bus with two accepting handlers, the first of which
raises from `handle`. -/
theorem publish_isolates_handler_failures_witness :
    (∀ h ∈ (⟨[hBoom, hOk], []⟩ : EventBus EventData).handlers,
        h.can_handle ev0 = .ok true) ∧
    (∃ h ∈ (⟨[hBoom, hOk], []⟩ : EventBus EventData).handlers,
        exceptOk (h.handle ev0) = false) ∧
    (∃ results,
      (publish (⟨[hBoom, hOk], []⟩ : EventBus EventData) ev0).2 = .ok results ∧
      results = [hBoom, hOk].map (fun h => (h, h.handle ev0)) ∧
      results.length = ([hBoom, hOk] : List (EventHandler EventData)).length ∧
      ∀ h ∈ ([hBoom, hOk] : List (EventHandler EventData)),
        exceptOk (h.handle ev0) = true → (h, Except.ok ()) ∈ results) :=
  ⟨by simp [hBoom, hOk],
   ⟨hBoom, by simp, rfl⟩,
   publish_isolates_handler_failures ⟨[hBoom, hOk], []⟩ ev0
     (by simp [hBoom, hOk]) ⟨hBoom, by simp, rfl⟩⟩

/-- C2: `publish` appends the event exactly once to the history (also with
zero qualifying handlers, in which case it returns without error), and
invokes `handle` exactly once on exactly the registered handlers whose
`can_handle` returns true, in registration order. -/
theorem publish_appends_once_and_dispatches {α : Type} (bus : EventBus α)
    (e : Event α)
    (hall : ∀ h ∈ bus.handlers, exceptOk (h.can_handle e) = true) :
    (publish bus e).1.event_history = bus.event_history ++ [e] ∧
    (publish bus e).2 =
      .ok ((bus.handlers.filter (fun h => canHandleTrue h e)).map
        (fun h => (h, execute_handler h e))) := by
  have hsel := selectHandlers_of_all_ok e bus.handlers hall
  exact ⟨by simp [publish]; cases hs : selectHandlers bus.handlers e <;> rfl,
         by simp [publish, hsel]⟩

/-- C2 witness: a bus with one accepting and one declining handler, and a
bus with no handlers at all. -/
theorem publish_appends_once_and_dispatches_witness :
    (∀ h ∈ (⟨[hOk, hNo], [ev0]⟩ : EventBus EventData).handlers,
        exceptOk (h.can_handle ev0) = true) ∧
    ((publish (⟨[hOk, hNo], [ev0]⟩ : EventBus EventData) ev0).1.event_history
        = [ev0] ++ [ev0] ∧
     (publish (⟨[hOk, hNo], [ev0]⟩ : EventBus EventData) ev0).2 =
        .ok (([hOk, hNo].filter (fun h => canHandleTrue h ev0)).map
          (fun h => (h, execute_handler h ev0)))) ∧
    ((publish (⟨[], []⟩ : EventBus EventData) ev0).1.event_history = [] ++ [ev0] ∧
     (publish (⟨[], []⟩ : EventBus EventData) ev0).2 =
        .ok ((([] : List (EventHandler EventData)).filter
            (fun h => canHandleTrue h ev0)).map (fun h => (h, execute_handler h ev0)))) :=
  ⟨by simp [hOk, hNo, exceptOk],
   publish_appends_once_and_dispatches ⟨[hOk, hNo], [ev0]⟩ ev0 (by simp [hOk, hNo, exceptOk]),
   publish_appends_once_and_dispatches ⟨[], []⟩ ev0 (by simp)⟩

/-- A handler whose `can_handle` raises, anywhere in the list, makes the
selection raise (the exception of the first raiser in order). -/
theorem selectHandlers_error_of_mem {α : Type} (e : Event α)
    (h : EventHandler α) (msg : String) (hh : h.can_handle e = .error msg) :
    ∀ hs : List (EventHandler α), h ∈ hs →
    ∃ msg2, selectHandlers hs e = .error msg2 := by
  intro hs
  induction hs with
  | nil => intro hc; cases hc
  | cons a t ih =>
    intro hmem
    rcases List.mem_cons.mp hmem with rfl | hmt
    · exact ⟨msg, by simp [selectHandlers, hh]⟩
    · cases hc : a.can_handle e with
      | error m => exact ⟨m, by simp [selectHandlers, hc]⟩
      | ok b =>
        obtain ⟨m2, hm2⟩ := ih hmt
        exact ⟨m2, by simp [selectHandlers, hc, hm2]⟩

/-- C9: if a registered handler's `can_handle` raises on the event, then
`publish` raises to its caller (the bus's error isolation wraps only
`handle`, not the predicate), yet the event has already been appended to
the history; when the raising handler is the first raiser in registration
order, the escaping exception is exactly its exception. -/
theorem publish_raises_can_handle_error {α : Type} (bus : EventBus α)
    (e : Event α) (h : EventHandler α) (msg : String)
    (hmem : h ∈ bus.handlers)
    (hh : h.can_handle e = .error msg) :
    (∃ msg2, publish bus e =
      (⟨bus.handlers, bus.event_history ++ [e]⟩, .error msg2)) ∧
    (∀ pre post, bus.handlers = pre ++ h :: post →
      (∀ g ∈ pre, exceptOk (g.can_handle e) = true) →
      publish bus e = (⟨bus.handlers, bus.event_history ++ [e]⟩, .error msg)) := by
  constructor
  · obtain ⟨m2, hm2⟩ := selectHandlers_error_of_mem e h msg hh bus.handlers hmem
    exact ⟨m2, by simp [publish, hm2]⟩
  · intro pre post hsplit hpre
    have hsel : selectHandlers bus.handlers e = .error msg := by
      rw [hsplit]; exact selectHandlers_error_of_first e h post msg hh pre hpre
    simp [publish, hsel]

/-- C9 witness: the second of three handlers raises from `can_handle`. -/
theorem publish_raises_can_handle_error_witness :
    (hRaise ∈ (⟨[hOk, hRaise, hNo], []⟩ : EventBus EventData).handlers) ∧
    hRaise.can_handle ev0 = .error "predicate failed" ∧
    ((∃ msg2, publish (⟨[hOk, hRaise, hNo], []⟩ : EventBus EventData) ev0 =
        (⟨[hOk, hRaise, hNo], [] ++ [ev0]⟩, .error msg2)) ∧
     (∀ pre post,
        ([hOk, hRaise, hNo] : List (EventHandler EventData)) = pre ++ hRaise :: post →
        (∀ g ∈ pre, exceptOk (g.can_handle ev0) = true) →
        publish (⟨[hOk, hRaise, hNo], []⟩ : EventBus EventData) ev0 =
          (⟨[hOk, hRaise, hNo], [] ++ [ev0]⟩, .error "predicate failed"))) :=
  ⟨by simp, rfl,
   publish_raises_can_handle_error ⟨[hOk, hRaise, hNo], []⟩ ev0 hRaise
     "predicate failed" (by simp) rfl⟩

/-- C5 counterexample: the claim quantifies over every type tag including
the empty string, but Python's `if event_type:` treats the empty string as
"no filter requested": on a bus whose history holds one event of type "A",
`get_event_history("")` returns that event rather than the empty
subsequence of events of type "". -/
theorem get_event_history_empty_tag_cex :
    ¬ (get_event_history (⟨[], [⟨"A", []⟩]⟩ : EventBus EventData) (some "") =
        (⟨[], [⟨"A", []⟩]⟩ : EventBus EventData).event_history.filter
          (fun e => e.event_type == "")) := by
  decide

/-- C5 amended: for every non-empty type tag the result is exactly the
subsequence of the history with that type, in history order; for the empty
string (exactly as for no argument) the entire history is returned. The
function reads the history without modifying it. -/
theorem get_event_history_filters {α : Type} (bus : EventBus α) (s : String)
    (hs : s ≠ "") :
    get_event_history bus (some s) =
      bus.event_history.filter (fun e => e.event_type == s) ∧
    get_event_history bus none = bus.event_history ∧
    get_event_history bus (some "") = bus.event_history := by
  refine ⟨?_, rfl, rfl⟩
  simp [get_event_history, hs]

/-- C5 witness: filtering a two-event history by the tag "A". -/
theorem get_event_history_filters_witness :
    ("A" : String) ≠ "" ∧
    (get_event_history (⟨[], [⟨"A", []⟩, ⟨"B", []⟩]⟩ : EventBus EventData)
        (some "A") =
      (⟨[], [⟨"A", []⟩, ⟨"B", []⟩]⟩ : EventBus EventData).event_history.filter
        (fun e => e.event_type == "A") ∧
     get_event_history (⟨[], [⟨"A", []⟩, ⟨"B", []⟩]⟩ : EventBus EventData) none =
       [⟨"A", []⟩, ⟨"B", []⟩] ∧
     get_event_history (⟨[], [⟨"A", []⟩, ⟨"B", []⟩]⟩ : EventBus EventData)
        (some "") = [⟨"A", []⟩, ⟨"B", []⟩]) :=
  ⟨by decide, get_event_history_filters ⟨[], [⟨"A", []⟩, ⟨"B", []⟩]⟩ "A" (by decide)⟩

/-- Every key of the computed changes is a key of `new_data`. -/
theorem calculate_changes_key_mem {β : Type} [DecidableEq β]
    (old_data : List (String × β)) :
    ∀ (new_data : List (String × β)) (k : String) (x : β × β),
    (k, x) ∈ calculate_changes old_data new_data → k ∈ new_data.map Prod.fst := by
  intro nd
  induction nd with
  | nil => intro k x h; simp [calculate_changes] at h
  | cons p rest ih =>
    obtain ⟨k2, v⟩ := p
    intro k x hmem
    cases hov : dictGet old_data k2 with
    | none =>
      simp only [calculate_changes, hov] at hmem
      exact List.mem_cons_of_mem _ (ih k x hmem)
    | some ov =>
      by_cases hne : ov = v
      · subst hne
        simp only [calculate_changes, hov] at hmem
        rw [if_neg (fun h => h rfl)] at hmem
        exact List.mem_cons_of_mem _ (ih k x hmem)
      · simp only [calculate_changes, hov, if_pos hne] at hmem
        rcases List.mem_cons.mp hmem with heq | hmt
        · simp only [Prod.mk.injEq] at heq
          simp [heq.1]
        · exact List.mem_cons_of_mem _ (ih k x hmt)

/-- Characterization of `_calculate_changes` on dictionaries (unique keys
in `new_data`): an entry `(k, from, to)` occurs exactly when `k` is bound
in both dictionaries with differing values. -/
theorem mem_calculate_changes_iff {β : Type} [DecidableEq β]
    (old_data : List (String × β)) :
    ∀ (new_data : List (String × β)), (new_data.map Prod.fst).Nodup →
    ∀ (k : String) (f t : β),
    (k, (f, t)) ∈ calculate_changes old_data new_data ↔
      (dictGet old_data k = some f ∧ dictGet new_data k = some t ∧ f ≠ t) := by
  intro nd
  induction nd with
  | nil => intro _ k f t; simp [calculate_changes, dictGet]
  | cons p rest ih =>
    obtain ⟨k2, v⟩ := p
    intro hnd k f t
    rw [List.map_cons, List.nodup_cons] at hnd
    obtain ⟨hk2, hndr⟩ := hnd
    have ihr := ih hndr
    by_cases hk : k2 = k
    · subst hk
      have hrest : ∀ x : β × β, (k2, x) ∉ calculate_changes old_data rest := by
        intro x hx
        exact hk2 (calculate_changes_key_mem old_data rest k2 x hx)
      cases hov : dictGet old_data k2 with
      | none =>
        simp only [calculate_changes, hov, dictGet, beq_self_eq_true, if_true]
        constructor
        · intro hx; exact absurd hx (hrest (f, t))
        · rintro ⟨hcontra, -⟩; cases hcontra
      | some ov =>
        by_cases hne : ov = v
        · subst hne
          simp only [calculate_changes, hov, dictGet, beq_self_eq_true, if_true]
          rw [if_neg (fun h => h rfl)]
          constructor
          · intro hx; exact absurd hx (hrest (f, t))
          · rintro ⟨hf, ht, hft⟩
            obtain rfl : ov = f := Option.some.inj hf
            obtain rfl : ov = t := Option.some.inj ht
            exact absurd rfl hft
        · simp only [calculate_changes, hov, if_pos hne, dictGet,
            beq_self_eq_true, if_true]
          constructor
          · intro hx
            rcases List.mem_cons.mp hx with heq | hmt
            · simp only [Prod.mk.injEq] at heq
              obtain ⟨-, h1, h2⟩ := heq
              subst h1
              subst h2
              exact ⟨rfl, rfl, hne⟩
            · exact absurd hmt (hrest (f, t))
          · rintro ⟨hf, ht, hft⟩
            obtain rfl : ov = f := Option.some.inj hf
            obtain rfl : v = t := Option.some.inj ht
            exact List.mem_cons_self _ _
    · have hkk : (k2 == k) = false := by
        exact beq_eq_false_iff_ne.mpr hk
      have hdg : dictGet ((k2, v) :: rest) k = dictGet rest k := by
        simp [dictGet, hkk]
      rw [hdg]
      cases hov : dictGet old_data k2 with
      | none =>
        simp only [calculate_changes, hov]
        exact ihr k f t
      | some ov =>
        by_cases hne : ov = v
        · subst hne
          simp only [calculate_changes, hov, ite_not, if_pos rfl]
          exact ihr k f t
        · simp only [calculate_changes, hov, if_pos hne]
          rw [List.mem_cons]
          constructor
          · intro hx
            rcases hx with heq | hmt
            · simp only [Prod.mk.injEq] at heq
              exact absurd heq.1.symm hk
            · exact (ihr k f t).mp hmt
          · intro hx
            exact Or.inr ((ihr k f t).mpr hx)

/-- C6: the payload of `OrderUpdatedEvent(order_id, old_data, new_data)`
carries `order_id`, both dictionaries, and a `changes` mapping holding
field -> (from, to) for exactly the keys bound in both dictionaries with
differing values (keys bound in only one dictionary, or bound in both with
equal values, are absent). -/
theorem orderUpdatedEvent_changes_spec (order_id : Int)
    (old_data new_data : OrderDict)
    (hnd : (new_data.map Prod.fst).Nodup) :
    (mkOrderUpdatedEvent order_id old_data new_data).data =
      [("order_id", .s (.sInt order_id)),
       ("old_data", .od old_data),
       ("new_data", .od new_data),
       ("changes", .chg (calculate_changes old_data new_data))] ∧
    ∀ (k : String) (f t : OVal),
      ((k, (f, t)) ∈ calculate_changes old_data new_data ↔
        (dictGet old_data k = some f ∧ dictGet new_data k = some t ∧ f ≠ t)) :=
  ⟨rfl, fun k f t => mem_calculate_changes_iff old_data new_data hnd k f t⟩

/-- C6 witness: an update where one shared key changes, one shared key is
unchanged, one key is only in the old data and one only in the new data. -/
theorem orderUpdatedEvent_changes_spec_witness :
    ((([("status", OVal.s (.sStr "SHIPPED")), ("totalAmount", OVal.s (.sRat 50)),
        ("note", OVal.s (.sStr "new"))] : OrderDict).map Prod.fst).Nodup) ∧
    ((mkOrderUpdatedEvent 1
        [("status", .s (.sStr "PENDING")), ("totalAmount", .s (.sRat 50)),
         ("old_only", .s (.sInt 3))]
        [("status", .s (.sStr "SHIPPED")), ("totalAmount", .s (.sRat 50)),
         ("note", .s (.sStr "new"))]).data =
      [("order_id", .s (.sInt 1)),
       ("old_data", .od [("status", .s (.sStr "PENDING")),
          ("totalAmount", .s (.sRat 50)), ("old_only", .s (.sInt 3))]),
       ("new_data", .od [("status", .s (.sStr "SHIPPED")),
          ("totalAmount", .s (.sRat 50)), ("note", .s (.sStr "new"))]),
       ("changes", .chg (calculate_changes
          [("status", .s (.sStr "PENDING")), ("totalAmount", .s (.sRat 50)),
           ("old_only", .s (.sInt 3))]
          [("status", .s (.sStr "SHIPPED")), ("totalAmount", .s (.sRat 50)),
           ("note", .s (.sStr "new"))]))] ∧
     ∀ (k : String) (f t : OVal),
      ((k, (f, t)) ∈ calculate_changes
          [("status", .s (.sStr "PENDING")), ("totalAmount", .s (.sRat 50)),
           ("old_only", .s (.sInt 3))]
          [("status", .s (.sStr "SHIPPED")), ("totalAmount", .s (.sRat 50)),
           ("note", .s (.sStr "new"))] ↔
        (dictGet [("status", .s (.sStr "PENDING")), ("totalAmount", .s (.sRat 50)),
           ("old_only", .s (.sInt 3))] k = some f ∧
         dictGet [("status", .s (.sStr "SHIPPED")), ("totalAmount", .s (.sRat 50)),
           ("note", .s (.sStr "new"))] k = some t ∧ f ≠ t))) :=
  ⟨by decide,
   orderUpdatedEvent_changes_spec 1
     [("status", .s (.sStr "PENDING")), ("totalAmount", .s (.sRat 50)),
      ("old_only", .s (.sInt 3))]
     [("status", .s (.sStr "SHIPPED")), ("totalAmount", .s (.sRat 50)),
      ("note", .s (.sStr "new"))]
     (by decide)⟩

/-- The response dictionary built by `create_order` always carries the four
keys `OrderCreatedEvent.__init__` requires, so the constructor succeeds. -/
theorem mkOrderCreatedEvent_on_response (o : DbOrder) (x : OVal) :
    mkOrderCreatedEvent (rawHeaderDict o ++ [("lines", x)]) =
      .ok ⟨"OrderCreated", orderDictToEventData (rawHeaderDict o ++ [("lines", x)])⟩ :=
  rfl

/-- Unfolds the running total of `_calculate_total_amount`. -/
theorem calculate_total_foldl (lines : List LineReq) :
    ∀ init : ℚ,
    lines.foldl (fun total line => total + line.unit_price * (line.quantity : ℚ)) init
      = init + (lines.map (fun l => l.unit_price * (l.quantity : ℚ))).sum := by
  induction lines with
  | nil => intro init; simp
  | cons a t ih =>
    intro init
    simp only [List.foldl_cons, List.map_cons, List.sum_cons, ih]
    ring

/-- C8: `create_order` computes `totalAmount` as the exact fixed-point sum
of `unit_price * quantity` over the request lines (the returned response
carries exactly that sum under "totalAmount"), and on the two lines
(1001, qty 2, price 25.50) and (1002, qty 1, price 15.00) the computed
total is 66. -/
theorem create_order_total_amount :
    (∀ (st : ServiceState) (req : CreateOrderRequest) (customer_id header_id : Int)
       (line_id : Nat → Int) (now : Option String) (resp : OrderDict),
      (create_order st req customer_id header_id line_id now).2 = .ok resp →
      dictGet resp "totalAmount" =
        some (.s (.sRat ((req.lines.map
          (fun l => l.unit_price * (l.quantity : ℚ))).sum)))) ∧
    calculate_total_amount
      [⟨1001, 2, (51 : ℚ)/2⟩, ⟨1002, 1, (15 : ℚ)⟩] = 66 := by
  constructor
  · intro st req customer_id header_id line_id now resp hok
    have htot : calculate_total_amount req.lines =
        (req.lines.map (fun l => l.unit_price * (l.quantity : ℚ))).sum := by
      simpa [calculate_total_amount] using calculate_total_foldl req.lines 0
    simp only [create_order, mkOrderCreatedEvent_on_response] at hok
    split at hok
    · simp at hok
    · simp only [Except.ok.injEq] at hok
      subst hok
      simp [dictGet, rawHeaderDict, htot]
  · norm_num [calculate_total_amount]

/-- A concrete request used by the C8 witness: the two lines of the spec's
round-trip scenario (25.50 is the rational 51/2). -/
def req0 : CreateOrderRequest :=
  ⟨some "2025-01-20", "PENDING", [⟨1001, 2, (51 : ℚ)/2⟩, ⟨1002, 1, (15 : ℚ)⟩]⟩

/-- An initial service state with an empty record store and a bus with no
handlers. -/
def st0 : ServiceState := ⟨[], ⟨[], []⟩⟩

/-- The response `create_order` returns on `req0` from `st0`. -/
def resp0 : OrderDict :=
  ((create_order st0 req0 123 7 (fun i => 100 + (i : Int)) (some "ts")).2.toOption).getD []

/-- C8 witness: creating the spec's two-line order returns a response whose
totalAmount is the exact sum 66. -/
theorem create_order_total_amount_witness :
    (create_order st0 req0 123 7 (fun i => 100 + (i : Int)) (some "ts")).2 = .ok resp0 ∧
    dictGet resp0 "totalAmount" =
      some (.s (.sRat ((req0.lines.map
        (fun l => l.unit_price * (l.quantity : ℚ))).sum))) :=
  ⟨rfl,
   create_order_total_amount.1 st0 req0 123 7 (fun i => 100 + (i : Int))
     (some "ts") resp0 rfl⟩

/-- The history half of `publish` never depends on the handlers' outcomes:
the returned bus always carries the appended history. -/
theorem publish_fst {α : Type} (bus : EventBus α) (e : Event α) :
    (publish bus e).1 = ⟨bus.handlers, bus.event_history ++ [e]⟩ := by
  cases hsel : selectHandlers bus.handlers e <;> simp [publish, hsel]

/-- C3: the cache-aside read. On a cached entry owned by the caller the
snapshot is returned with no record-store query and no cache write; on a
missing entry or an ownership mismatch the record store is queried with
the conjunctive (orderId, customerId) predicate; a missing order yields an
absent result (no exception, no cache write); a found order is normalized,
written to the cache, and returned. -/
theorem get_order_by_id_cache_aside (cache : Cache) (db : List DbOrder)
    (oid cid : Int) :
    (∀ cached, dictGet cache (cacheKey oid) = some cached →
      ((dictGet cached "customerId").getD (.s .sNone) == OVal.s (.sInt cid)) = true →
      get_order_by_id cache db oid cid = ⟨some cached, cache, false⟩) ∧
    (dictGet cache (cacheKey oid) = none →
      get_order_by_id cache db oid cid = fallbackToDb cache db oid cid) ∧
    (∀ cached, dictGet cache (cacheKey oid) = some cached →
      ((dictGet cached "customerId").getD (.s .sNone) == OVal.s (.sInt cid)) = false →
      get_order_by_id cache db oid cid = fallbackToDb cache db oid cid) ∧
    (db.find? (ownedBy oid cid) = none →
      fallbackToDb cache db oid cid = ⟨none, cache, true⟩) ∧
    (∀ hdr, db.find? (ownedBy oid cid) = some hdr →
      fallbackToDb cache db oid cid =
        ⟨some (normalizeSnapshot hdr),
         cacheSet cache (cacheKey oid) (normalizeSnapshot hdr), true⟩) ∧
    (fallbackToDb cache db oid cid).dbQueried = true := by
  refine ⟨?_, ?_, ?_, ?_, ?_, ?_⟩
  · intro cached hc hown
    simp [get_order_by_id, hc, hown]
  · intro hc
    simp [get_order_by_id, hc]
  · intro cached hc hown
    simp [get_order_by_id, hc, hown]
  · intro hf
    simp [fallbackToDb, hf]
  · intro hdr hf
    simp [fallbackToDb, hf]
  · cases hf : db.find? (ownedBy oid cid) <;> simp [fallbackToDb, hf]

/-- A concrete stored order used by several witnesses. -/
def od1 : DbOrder :=
  ⟨1, 123, some "2025-01-20", "PENDING", 20, some "c", some "u",
   [⟨5, 1001, 2, 10, some "c"⟩]⟩

/-- The normalized snapshot of `od1`. -/
def snap1 : OrderDict := normalizeSnapshot od1

/-- A cache holding the snapshot of `od1` under its key. -/
def cache1 : Cache := [("order:1", snap1)]

/-- C3 witness: an owned cache hit served with no store query; a cache miss
and an ownership mismatch both falling back to the store; a store miss
returning an absent value; a store hit returning the normalized snapshot
and writing it through. -/
theorem get_order_by_id_cache_aside_witness :
    (dictGet cache1 (cacheKey 1) = some snap1 ∧
     ((dictGet snap1 "customerId").getD (.s .sNone) == OVal.s (.sInt 123)) = true ∧
     get_order_by_id cache1 [od1] 1 123 = ⟨some snap1, cache1, false⟩) ∧
    (dictGet ([] : Cache) (cacheKey 1) = none ∧
     get_order_by_id [] [od1] 1 123 = fallbackToDb [] [od1] 1 123) ∧
    (((dictGet snap1 "customerId").getD (.s .sNone) == OVal.s (.sInt 456)) = false ∧
     get_order_by_id cache1 [od1] 1 456 = fallbackToDb cache1 [od1] 1 456) ∧
    (([od1].find? (ownedBy 1 456) = none) ∧
     fallbackToDb cache1 [od1] 1 456 = ⟨none, cache1, true⟩) ∧
    (([od1].find? (ownedBy 1 123) = some od1) ∧
     fallbackToDb [] [od1] 1 123 =
       ⟨some (normalizeSnapshot od1),
        cacheSet [] (cacheKey 1) (normalizeSnapshot od1), true⟩) :=
  ⟨⟨by decide, by decide,
    (get_order_by_id_cache_aside cache1 [od1] 1 123).1 snap1 (by decide) (by decide)⟩,
   ⟨by decide,
    (get_order_by_id_cache_aside [] [od1] 1 123).2.1 (by decide)⟩,
   ⟨by decide,
    (get_order_by_id_cache_aside cache1 [od1] 1 456).2.2.1 snap1 (by decide) (by decide)⟩,
   ⟨by decide,
    (get_order_by_id_cache_aside cache1 [od1] 1 456).2.2.2.1 (by decide)⟩,
   ⟨by decide,
    (get_order_by_id_cache_aside [] [od1] 1 123).2.2.2.2.1 od1 (by decide)⟩⟩

/-- After `dbUpdateStatus`, looking the order up again by id alone (as
`update_order` does) finds the found order with only its status changed,
provided the store's ids are unique. -/
theorem dbUpdateStatus_find (oid : Int) (s : String) (od : DbOrder)
    (hid : od.id = oid) :
    ∀ db : List DbOrder, (db.map (fun r => r.id)).Nodup → od ∈ db →
    (dbUpdateStatus db oid s).find? (fun r => r.id == oid) =
      some { od with status := s } := by
  intro db
  induction db with
  | nil => intro _ h; cases h
  | cons a t ih =>
    intro hnd hmem
    rw [List.map_cons, List.nodup_cons] at hnd
    obtain ⟨hna, hnt⟩ := hnd
    rcases List.mem_cons.mp hmem with rfl | hmt
    · have hbeq : (od.id == oid) = true := beq_iff_eq.mpr hid
      simp only [dbUpdateStatus, List.map_cons]
      rw [if_pos hbeq]
      exact List.find?_cons_of_pos _ hbeq
    · have hne : a.id ≠ oid := by
        intro h
        apply hna
        rw [h, ← hid]
        exact List.mem_map.mpr ⟨od, hmt, rfl⟩
      have hbeq : (a.id == oid) = false := beq_eq_false_iff_ne.mpr hne
      simp only [dbUpdateStatus, List.map_cons]
      rw [if_neg (by simp [hbeq])]
      rw [List.find?_cons_of_neg _ (by simp [hbeq])]
      exact ih hnt hmt

/-- C4: updating a PENDING order to SHIPPED appends to the bus history an
`OrderUpdated` event built from the pre-update header fields and the
post-update order, and that event's `changes` mapping holds exactly the
single entry status: from PENDING to SHIPPED (every unchanged field is
absent from it). -/
theorem update_order_status_change_event (st : ServiceState) (oid cid : Int)
    (od : DbOrder)
    (hnd : (st.db.map (fun r => r.id)).Nodup)
    (hfind : st.db.find? (ownedBy oid cid) = some od)
    (hpend : od.status = "PENDING") :
    (update_order st oid "SHIPPED" cid).1.bus.event_history =
      st.bus.event_history ++
        [mkOrderUpdatedEvent oid (rawHeaderDict od)
          (rawOrderDict { od with status := "SHIPPED" })] ∧
    dictGet (mkOrderUpdatedEvent oid (rawHeaderDict od)
        (rawOrderDict { od with status := "SHIPPED" })).data "changes" =
      some (.chg [("status", (.s (.sStr "PENDING"), .s (.sStr "SHIPPED")))]) := by
  have hp := List.find?_some hfind
  have hmem := List.mem_of_find?_eq_some hfind
  simp only [ownedBy, Bool.and_eq_true, beq_iff_eq] at hp
  obtain ⟨hid, -⟩ := hp
  have hupd := dbUpdateStatus_find oid "SHIPPED" od hid st.db hnd hmem
  constructor
  · simp only [update_order, hfind, hupd]
    split <;> simp [publish_fst]
  · simp only [mkOrderUpdatedEvent]
    simp [dictGet, calculate_changes, rawHeaderDict, rawOrderDict, rawLineDict,
      hpend]

/-- C4 witness: a store holding the single PENDING order `od1`. -/
theorem update_order_status_change_event_witness :
    (([od1].map (fun r => r.id)).Nodup ∧
     [od1].find? (ownedBy 1 123) = some od1 ∧
     od1.status = "PENDING") ∧
    ((update_order ⟨[od1], ⟨[], []⟩⟩ 1 "SHIPPED" 123).1.bus.event_history =
      [] ++ [mkOrderUpdatedEvent 1 (rawHeaderDict od1)
          (rawOrderDict { od1 with status := "SHIPPED" })] ∧
     dictGet (mkOrderUpdatedEvent 1 (rawHeaderDict od1)
        (rawOrderDict { od1 with status := "SHIPPED" })).data "changes" =
      some (.chg [("status", (.s (.sStr "PENDING"), .s (.sStr "SHIPPED")))])) :=
  ⟨⟨by decide, by decide, by decide⟩,
   update_order_status_change_event ⟨[od1], ⟨[], []⟩⟩ 1 123 od1
     (by decide) (by decide) (by decide)⟩

/-- C7: a successful `delete_order` publishes an `OrderDeleted` event whose
payload carries the order id and the full pre-deletion snapshot of the
order, lines included, captured from the record store before the delete
was issued (the pre-state record is what the payload holds, and the
record is removed afterwards). -/
theorem delete_order_publishes_predeletion_snapshot (st : ServiceState)
    (oid cid : Int) (od : DbOrder)
    (hfind : st.db.find? (ownedBy oid cid) = some od)
    (hpub : ∀ h ∈ st.bus.handlers,
      exceptOk (h.can_handle (mkOrderDeletedEvent oid (rawOrderDict od))) = true) :
    (delete_order st oid cid true).result = .ok true ∧
    (delete_order st oid cid true).state.bus.event_history =
      st.bus.event_history ++ [mkOrderDeletedEvent oid (rawOrderDict od)] ∧
    (mkOrderDeletedEvent oid (rawOrderDict od)).data =
      [("order_id", .s (.sInt oid)), ("order_data", .od (rawOrderDict od))] ∧
    dictGet (rawOrderDict od) "lines" =
      some (.lines (od.lines.map rawLineDict)) ∧
    od ∈ st.db ∧
    (delete_order st oid cid true).state.db = dbDelete st.db oid := by
  have hsel := selectHandlers_of_all_ok
    (mkOrderDeletedEvent oid (rawOrderDict od)) st.bus.handlers hpub
  have hpub2 : (publish st.bus (mkOrderDeletedEvent oid (rawOrderDict od))).2 =
      .ok ((st.bus.handlers.filter
        (fun h => canHandleTrue h (mkOrderDeletedEvent oid (rawOrderDict od)))).map
        (fun h => (h, execute_handler h (mkOrderDeletedEvent oid (rawOrderDict od))))) := by
    simp [publish, hsel]
  refine ⟨?_, ?_, rfl, ?_, List.mem_of_find?_eq_some hfind, ?_⟩
  · simp [delete_order, hfind, hpub2]
  · simp [delete_order, hfind, hpub2, publish_fst]
  · simp [rawOrderDict, rawHeaderDict, dictGet]
  · simp [delete_order, hfind, hpub2]

/-- C7 witness: deleting `od1` from a one-order store with a handler-free
bus. -/
theorem delete_order_publishes_predeletion_snapshot_witness :
    (([od1] : List DbOrder).find? (ownedBy 1 123) = some od1 ∧
     (∀ h ∈ (⟨[od1], ⟨[], []⟩⟩ : ServiceState).bus.handlers,
       exceptOk (h.can_handle (mkOrderDeletedEvent 1 (rawOrderDict od1))) = true)) ∧
    ((delete_order ⟨[od1], ⟨[], []⟩⟩ 1 123 true).result = .ok true ∧
     (delete_order ⟨[od1], ⟨[], []⟩⟩ 1 123 true).state.bus.event_history =
       [] ++ [mkOrderDeletedEvent 1 (rawOrderDict od1)] ∧
     (mkOrderDeletedEvent 1 (rawOrderDict od1)).data =
       [("order_id", .s (.sInt 1)), ("order_data", .od (rawOrderDict od1))] ∧
     dictGet (rawOrderDict od1) "lines" =
       some (.lines (od1.lines.map rawLineDict)) ∧
     od1 ∈ [od1] ∧
     (delete_order ⟨[od1], ⟨[], []⟩⟩ 1 123 true).state.db = dbDelete [od1] 1) :=
  ⟨⟨by decide, by simp⟩,
   delete_order_publishes_predeletion_snapshot ⟨[od1], ⟨[], []⟩⟩ 1 123 od1
     (by decide) (by simp)⟩

/-- C10: when the order is found, `delete_order` issues its external calls
in the order find, publish, delete: the publish (which appends the event
to the bus history and dispatches it) strictly precedes the record-store
delete in the trace, so even a failing delete happens only after the
deletion event is in the history. -/
theorem delete_order_publish_precedes_delete (st : ServiceState)
    (oid cid : Int) (od : DbOrder) (delete_ok : Bool)
    (hfind : st.db.find? (ownedBy oid cid) = some od)
    (hpub : ∀ h ∈ st.bus.handlers,
      exceptOk (h.can_handle (mkOrderDeletedEvent oid (rawOrderDict od))) = true) :
    (delete_order st oid cid delete_ok).trace =
      [.dbFind, .publishEvent (mkOrderDeletedEvent oid (rawOrderDict od)),
       .dbDeleteCall oid] ∧
    (∃ i j : ℕ, i < j ∧
      (delete_order st oid cid delete_ok).trace[i]? =
        some (DbAction.publishEvent (mkOrderDeletedEvent oid (rawOrderDict od))) ∧
      (delete_order st oid cid delete_ok).trace[j]? =
        some (DbAction.dbDeleteCall oid)) ∧
    (delete_order st oid cid delete_ok).state.bus.event_history =
      st.bus.event_history ++ [mkOrderDeletedEvent oid (rawOrderDict od)] ∧
    (delete_ok = false →
      exceptOk (delete_order st oid cid delete_ok).result = false ∧
      mkOrderDeletedEvent oid (rawOrderDict od) ∈
        (delete_order st oid cid delete_ok).state.bus.event_history) := by
  have hsel := selectHandlers_of_all_ok
    (mkOrderDeletedEvent oid (rawOrderDict od)) st.bus.handlers hpub
  have hpub2 : (publish st.bus (mkOrderDeletedEvent oid (rawOrderDict od))).2 =
      .ok ((st.bus.handlers.filter
        (fun h => canHandleTrue h (mkOrderDeletedEvent oid (rawOrderDict od)))).map
        (fun h => (h, execute_handler h (mkOrderDeletedEvent oid (rawOrderDict od))))) := by
    simp [publish, hsel]
  have htrace : (delete_order st oid cid delete_ok).trace =
      [.dbFind, .publishEvent (mkOrderDeletedEvent oid (rawOrderDict od)),
       .dbDeleteCall oid] := by
    cases delete_ok <;> simp [delete_order, hfind, hpub2]
  refine ⟨htrace, ⟨1, 2, by decide, by rw [htrace]; rfl, by rw [htrace]; rfl⟩,
    ?_, ?_⟩
  · cases delete_ok <;> simp [delete_order, hfind, hpub2, publish_fst]
  · intro hdo
    subst hdo
    refine ⟨by simp [delete_order, hfind, hpub2, exceptOk], ?_⟩
    have : (delete_order st oid cid false).state.bus.event_history =
        st.bus.event_history ++ [mkOrderDeletedEvent oid (rawOrderDict od)] := by
      simp [delete_order, hfind, hpub2, publish_fst]
    rw [this]
    exact List.mem_append_right _ (List.mem_singleton_self _)

/-- C10 witness: deleting `od1`, once with a record store whose delete
succeeds and once with one whose delete fails. -/
theorem delete_order_publish_precedes_delete_witness :
    (([od1] : List DbOrder).find? (ownedBy 1 123) = some od1 ∧
     (∀ h ∈ (⟨[od1], ⟨[], []⟩⟩ : ServiceState).bus.handlers,
       exceptOk (h.can_handle (mkOrderDeletedEvent 1 (rawOrderDict od1))) = true)) ∧
    ((delete_order ⟨[od1], ⟨[], []⟩⟩ 1 123 false).trace =
      [.dbFind, .publishEvent (mkOrderDeletedEvent 1 (rawOrderDict od1)),
       .dbDeleteCall 1] ∧
     (∃ i j : ℕ, i < j ∧
       (delete_order ⟨[od1], ⟨[], []⟩⟩ 1 123 false).trace[i]? =
         some (DbAction.publishEvent (mkOrderDeletedEvent 1 (rawOrderDict od1))) ∧
       (delete_order ⟨[od1], ⟨[], []⟩⟩ 1 123 false).trace[j]? =
         some (DbAction.dbDeleteCall 1)) ∧
     (delete_order ⟨[od1], ⟨[], []⟩⟩ 1 123 false).state.bus.event_history =
       [] ++ [mkOrderDeletedEvent 1 (rawOrderDict od1)] ∧
     ((false : Bool) = false →
       exceptOk (delete_order ⟨[od1], ⟨[], []⟩⟩ 1 123 false).result = false ∧
       mkOrderDeletedEvent 1 (rawOrderDict od1) ∈
         (delete_order ⟨[od1], ⟨[], []⟩⟩ 1 123 false).state.bus.event_history)) :=
  ⟨⟨by decide, by simp⟩,
   delete_order_publish_precedes_delete ⟨[od1], ⟨[], []⟩⟩ 1 123 od1 false
     (by decide) (by simp)⟩

end OrderMgmt
